import Mathlib

/-!
Verification of the producer/consumer sample (DistributedSystemCodeSample.cpp
and DistributedSystemWithSOLID.cpp).

The observable behaviour of the handler pipeline is modelled as a list of
events: log lines written to a stream, and calls to the middleware notify
step (sendMessage) carrying their payload.  The thread-safe FIFO queue is
modelled as a list of pending task ids together with small transition
systems that capture the interleavings of push and pop that the mutex
serialises.
-/

/-- Output stream a log line is written to (std::cout or std::cerr). -/
inductive LogStream where
  | stdout
  | stderr
deriving DecidableEq, Repr

/-- An observable event of the handler pipeline: a log line on a stream, or
a notify call (MiddlewareService::sendMessage) with its payload. -/
inductive Event where
  | log : LogStream → String → Event
  | send : String → Event
deriving DecidableEq, Repr

/-- The texts of the log lines among a list of events, in order. -/
def logTexts (es : List Event) : List String :=
  es.filterMap fun e =>
    match e with
    | Event.log _ t => some t
    | Event.send _ => none

/-- The payloads of the notify (sendMessage) calls among a list of events. -/
def sendPayloads (es : List Event) : List String :=
  es.filterMap fun e =>
    match e with
    | Event.log _ _ => none
    | Event.send m => some m

namespace CodeSample

/-- DatabaseService::fetchMessageById from DistributedSystemCodeSample.cpp:
returns "Message for ID <id>" when 0 < id and id <= 5, otherwise throws
std::invalid_argument with description "Invalid ID: <id>". -/
def fetchMessageById (id : Int) : Except String String :=
  if 0 < id ∧ id ≤ 5 then
    Except.ok ("Message for ID " ++ toString id)
  else
    Except.error ("Invalid ID: " ++ toString id)

/-- MiddlewareService::sendMessage from DistributedSystemCodeSample.cpp:
the call with its payload, and the log line its body writes to LOGGER
(std::cerr). -/
def sendMessage (message : String) : List Event :=
  [Event.send message, Event.log LogStream.stderr ("Middleware: Sending -> " ++ message)]

/-- DistributedTaskProcessor::processTask from DistributedSystemCodeSample.cpp:
the try block fetches the message; on success it logs the fetched line to
LOGGER (std::cerr) and calls sendMessage with the composed payload; the
catch block absorbs the failure and logs the error line, so the function
itself never propagates an error (result is always Except.ok). -/
def processTask (taskId : Int) : Except String (List Event) :=
  match fetchMessageById taskId with
  | Except.ok message =>
      Except.ok
        (Event.log LogStream.stderr ("Task " ++ toString taskId ++ ": Fetched -> " ++ message)
          :: sendMessage ("Processed Task " ++ toString taskId ++ ": " ++ message))
  | Except.error ex =>
      Except.ok [Event.log LogStream.stderr ("Task " ++ toString taskId ++ ": Error -> " ++ ex)]

end CodeSample

namespace WithSOLID

/-- DatabaseService::fetchMessageById from DistributedSystemWithSOLID.cpp
(same body as the CodeSample variant). -/
def fetchMessageById (id : Int) : Except String String :=
  if 0 < id ∧ id ≤ 5 then
    Except.ok ("Message for ID " ++ toString id)
  else
    Except.error ("Invalid ID: " ++ toString id)

/-- MiddlewareService::sendMessage from DistributedSystemWithSOLID.cpp: its
body logs to std::cout. -/
def sendMessage (message : String) : List Event :=
  [Event.send message, Event.log LogStream.stdout ("Middleware: Sending -> " ++ message)]

/-- DistributedTaskProcessor::processTask from DistributedSystemWithSOLID.cpp:
same control flow as the CodeSample variant, but the fetched line goes to
std::cout and the error line to std::cerr. -/
def processTask (taskId : Int) : Except String (List Event) :=
  match fetchMessageById taskId with
  | Except.ok message =>
      Except.ok
        (Event.log LogStream.stdout ("Task " ++ toString taskId ++ ": Fetched -> " ++ message)
          :: sendMessage ("Processed Task " ++ toString taskId ++ ": " ++ message))
  | Except.error ex =>
      Except.ok [Event.log LogStream.stderr ("Task " ++ toString taskId ++ ": Error -> " ++ ex)]

end WithSOLID

namespace MessageQueue

/-- MessageQueue::push (identical in both files): under the lock, appends
the task id at the tail of the pending sequence (and signals one waiter). -/
def push (q : List Int) (taskId : Int) : List Int :=
  q ++ [taskId]

/-- MessageQueue::pop (identical in both files): under the lock, waits until
the pending sequence is nonempty, then removes and returns the front
element.  The blocked case (empty queue, the wait predicate is false and
the caller stays suspended) is the none result. -/
def pop (q : List Int) : Option (Int × List Int) :=
  match q with
  | [] => none
  | t :: rest => some (t, rest)

end MessageQueue

/-- Pushing a whole sequence of task ids, in order (the seeding loop of
main, or any burst of producer pushes the mutex serialises into an order). -/
def pushAll (q : List Int) (xs : List Int) : List Int :=
  xs.foldl MessageQueue.push q

theorem pushAll_eq_append (xs : List Int) : ∀ q : List Int, pushAll q xs = q ++ xs := by
  induction xs with
  | nil => intro q; simp [pushAll]
  | cons x xs ih =>
      intro q
      simpa [pushAll, MessageQueue.push] using ih (q ++ [x])

theorem pop_eq_some_iff (q : List Int) (v : Int) (q' : List Int) :
    MessageQueue.pop q = some (v, q') ↔ q = v :: q' := by
  cases q with
  | nil => simp [MessageQueue.pop]
  | cons t rest =>
      simp only [MessageQueue.pop, Option.some.injEq, Prod.mk.injEq, List.cons.injEq]

/-- Helper: in range, the fetch succeeds with the deterministic string. -/
theorem fetch_ok_of_range (id : Int) (h1 : 1 ≤ id) (h2 : id ≤ 5) :
    CodeSample.fetchMessageById id = Except.ok ("Message for ID " ++ toString id) := by
  unfold CodeSample.fetchMessageById
  rw [if_pos]
  omega

/-- Helper: outside the range, the fetch fails with the invalid-id error. -/
theorem fetch_error_of_not_range (id : Int) (h : id < 1 ∨ 5 < id) :
    CodeSample.fetchMessageById id = Except.error ("Invalid ID: " ++ toString id) := by
  unfold CodeSample.fetchMessageById
  rw [if_neg]
  omega

/-- C1: for every integer id in the inclusive range 1..5, fetchMessageById
succeeds and returns exactly "Message for ID <id>". -/
theorem fetch_in_range (id : Int) (h1 : 1 ≤ id) (h2 : id ≤ 5) :
    CodeSample.fetchMessageById id = Except.ok ("Message for ID " ++ toString id) ∧
    WithSOLID.fetchMessageById id = Except.ok ("Message for ID " ++ toString id) := by
  refine ⟨fetch_ok_of_range id h1 h2, ?_⟩
  unfold WithSOLID.fetchMessageById
  rw [if_pos]
  omega

/-- Witness for C1 at id = 3. -/
theorem fetch_in_range_witness :
    CodeSample.fetchMessageById 3 = Except.ok ("Message for ID " ++ toString (3 : Int)) ∧
    WithSOLID.fetchMessageById 3 = Except.ok ("Message for ID " ++ toString (3 : Int)) :=
  fetch_in_range 3 (by decide) (by decide)

/-- Helper: the WithSOLID fetch also fails outside the range. -/
theorem fetch_error_of_not_range_solid (id : Int) (h : id < 1 ∨ 5 < id) :
    WithSOLID.fetchMessageById id = Except.error ("Invalid ID: " ++ toString id) := by
  unfold WithSOLID.fetchMessageById
  rw [if_neg]
  omega

/-- C2: for every id outside 1..5 the lookup fails with the invalid-id error,
and processTask for that id emits exactly one log line (the error line) and
performs no notify (sendMessage) call, in both variants. -/
theorem invalid_id_no_notify (id : Int) (h : id < 1 ∨ 5 < id) :
    CodeSample.fetchMessageById id = Except.error ("Invalid ID: " ++ toString id) ∧
    WithSOLID.fetchMessageById id = Except.error ("Invalid ID: " ++ toString id) ∧
    CodeSample.processTask id =
      Except.ok [Event.log LogStream.stderr
        ("Task " ++ toString id ++ ": Error -> " ++ ("Invalid ID: " ++ toString id))] ∧
    WithSOLID.processTask id =
      Except.ok [Event.log LogStream.stderr
        ("Task " ++ toString id ++ ": Error -> " ++ ("Invalid ID: " ++ toString id))] ∧
    logTexts [Event.log LogStream.stderr
        ("Task " ++ toString id ++ ": Error -> " ++ ("Invalid ID: " ++ toString id))] =
      ["Task " ++ toString id ++ ": Error -> " ++ ("Invalid ID: " ++ toString id)] ∧
    sendPayloads [Event.log LogStream.stderr
        ("Task " ++ toString id ++ ": Error -> " ++ ("Invalid ID: " ++ toString id))] = [] := by
  have hc := fetch_error_of_not_range id h
  have hs := fetch_error_of_not_range_solid id h
  refine ⟨hc, hs, ?_, ?_, ?_, ?_⟩
  · unfold CodeSample.processTask
    rw [hc]
  · unfold WithSOLID.processTask
    rw [hs]
  · simp [logTexts]
  · simp [sendPayloads]

/-- Witness for C2 at id = 6. -/
theorem invalid_id_no_notify_witness :
    CodeSample.fetchMessageById 6 = Except.error ("Invalid ID: " ++ toString (6 : Int)) ∧
    CodeSample.processTask 6 =
      Except.ok [Event.log LogStream.stderr
        ("Task " ++ toString (6 : Int) ++ ": Error -> " ++
          ("Invalid ID: " ++ toString (6 : Int)))] ∧
    sendPayloads [Event.log LogStream.stderr
        ("Task " ++ toString (6 : Int) ++ ": Error -> " ++
          ("Invalid ID: " ++ toString (6 : Int)))] = [] :=
  ⟨(invalid_id_no_notify 6 (by decide)).1,
   (invalid_id_no_notify 6 (by decide)).2.2.1,
   (invalid_id_no_notify 6 (by decide)).2.2.2.2.2⟩

/-- C7: for every integer id, processTask terminates normally and raises no
error to its caller (the catch block absorbs the lookup failure), in both
variants: the result is always Except.ok. -/
theorem processTask_never_throws (id : Int) :
    (∃ es, CodeSample.processTask id = Except.ok es) ∧
    (∃ es, WithSOLID.processTask id = Except.ok es) := by
  constructor
  · unfold CodeSample.processTask
    cases CodeSample.fetchMessageById id <;> exact ⟨_, rfl⟩
  · unfold WithSOLID.processTask
    cases WithSOLID.fetchMessageById id <;> exact ⟨_, rfl⟩

/-- C4: when lookup succeeds, processTask first logs the fetched line, then
calls notify with the composed payload; for ids in 1..5 the payload is
exactly the composition with the deterministic fetched message. -/
theorem processTask_success (id : Int) (msg : String)
    (h : CodeSample.fetchMessageById id = Except.ok msg) :
    CodeSample.processTask id =
      Except.ok
        [Event.log LogStream.stderr ("Task " ++ toString id ++ ": Fetched -> " ++ msg),
         Event.send ("Processed Task " ++ toString id ++ ": " ++ msg),
         Event.log LogStream.stderr
           ("Middleware: Sending -> " ++ ("Processed Task " ++ toString id ++ ": " ++ msg))] ∧
    sendPayloads
        [Event.log LogStream.stderr ("Task " ++ toString id ++ ": Fetched -> " ++ msg),
         Event.send ("Processed Task " ++ toString id ++ ": " ++ msg),
         Event.log LogStream.stderr
           ("Middleware: Sending -> " ++ ("Processed Task " ++ toString id ++ ": " ++ msg))] =
      ["Processed Task " ++ toString id ++ ": " ++ msg] ∧
    (1 ≤ id → id ≤ 5 → msg = "Message for ID " ++ toString id) := by
  refine ⟨?_, ?_, fun hr1 hr2 => ?_⟩
  · unfold CodeSample.processTask
    rw [h]
    simp [CodeSample.sendMessage]
  · simp [sendPayloads]
  · have hdet := fetch_ok_of_range id hr1 hr2
    have hh := h.symm.trans hdet
    injection hh

/-- Witness for C4 at id = 2. -/
theorem processTask_success_witness :
    CodeSample.processTask 2 =
      Except.ok
        [Event.log LogStream.stderr
           ("Task " ++ toString (2 : Int) ++ ": Fetched -> " ++ "Message for ID 2"),
         Event.send ("Processed Task " ++ toString (2 : Int) ++ ": " ++ "Message for ID 2"),
         Event.log LogStream.stderr
           ("Middleware: Sending -> " ++
             ("Processed Task " ++ toString (2 : Int) ++ ": " ++ "Message for ID 2"))] ∧
    sendPayloads
        [Event.log LogStream.stderr
           ("Task " ++ toString (2 : Int) ++ ": Fetched -> " ++ "Message for ID 2"),
         Event.send ("Processed Task " ++ toString (2 : Int) ++ ": " ++ "Message for ID 2"),
         Event.log LogStream.stderr
           ("Middleware: Sending -> " ++
             ("Processed Task " ++ toString (2 : Int) ++ ": " ++ "Message for ID 2"))] =
      ["Processed Task " ++ toString (2 : Int) ++ ": " ++ "Message for ID 2"] :=
  ⟨(processTask_success 2 "Message for ID 2" (by rfl)).1,
   (processTask_success 2 "Message for ID 2" (by rfl)).2.1⟩

/-- Popping three times in a row (used to state the FIFO scenario). -/
def popThree (q : List Int) : Option (Int × Int × Int) :=
  match MessageQueue.pop q with
  | none => none
  | some (a, q1) =>
      match MessageQueue.pop q1 with
      | none => none
      | some (b, q2) =>
          match MessageQueue.pop q2 with
          | none => none
          | some (c, _) => some (a, b, c)

/-- C3 counterexample: from the nonempty starting queue with pending element
9, pushing the sequence 1, 2, 3 and then popping three times yields 9, 1, 2
rather than 1, 2, 3, so the property quantified over every queue state is
false. -/
theorem queue_fifo_counterexample :
    ¬ popThree (pushAll [9] [1, 2, 3]) = some (1, 2, 3) := by
  decide

/-- C3 amended: starting from the EMPTY queue, pushing 1, 2, 3 and then
popping three times yields 1, then 2, then 3, even with arbitrary bursts of
extra pushes (a, b, c) interleaved before each pop; and in general pop
removes and returns the head of the pending sequence, which is the
earliest-pushed pending element. -/
theorem queue_fifo (a b c : List Int) :
    MessageQueue.pop (pushAll (pushAll [] [1, 2, 3]) a) = some (1, [2, 3] ++ a) ∧
    MessageQueue.pop (pushAll ([2, 3] ++ a) b) = some (2, [3] ++ (a ++ b)) ∧
    MessageQueue.pop (pushAll ([3] ++ (a ++ b)) c) = some (3, a ++ b ++ c) ∧
    (∀ (v : Int) (rest : List Int), MessageQueue.pop (v :: rest) = some (v, rest)) := by
  refine ⟨?_, ?_, ?_, fun v rest => rfl⟩
  · rw [pushAll_eq_append, pushAll_eq_append]
    simp [MessageQueue.pop]
  · rw [pushAll_eq_append]
    simp [MessageQueue.pop, List.append_assoc]
  · rw [pushAll_eq_append]
    simp [MessageQueue.pop, List.append_assoc]

/-- C10: the two variants are extensionally equal on processing logic: the
fetch functions agree on every id, and for every id both processTask
variants succeed with event lists that carry the same notify payloads and
the same log line texts (they differ only in the streams the lines go to). -/
theorem variants_equivalent (id : Int) :
    WithSOLID.fetchMessageById id = CodeSample.fetchMessageById id ∧
    ∃ es1 es2, CodeSample.processTask id = Except.ok es1 ∧
      WithSOLID.processTask id = Except.ok es2 ∧
      sendPayloads es1 = sendPayloads es2 ∧
      logTexts es1 = logTexts es2 := by
  have hfetch : WithSOLID.fetchMessageById id = CodeSample.fetchMessageById id := rfl
  refine ⟨hfetch, ?_⟩
  cases hf : CodeSample.fetchMessageById id with
  | ok msg =>
      have hs : WithSOLID.fetchMessageById id = Except.ok msg := hfetch.trans hf
      refine ⟨[Event.log LogStream.stderr ("Task " ++ toString id ++ ": Fetched -> " ++ msg),
               Event.send ("Processed Task " ++ toString id ++ ": " ++ msg),
               Event.log LogStream.stderr
                 ("Middleware: Sending -> " ++ ("Processed Task " ++ toString id ++ ": " ++ msg))],
              [Event.log LogStream.stdout ("Task " ++ toString id ++ ": Fetched -> " ++ msg),
               Event.send ("Processed Task " ++ toString id ++ ": " ++ msg),
               Event.log LogStream.stdout
                 ("Middleware: Sending -> " ++ ("Processed Task " ++ toString id ++ ": " ++ msg))],
              ?_, ?_, ?_, ?_⟩
      · unfold CodeSample.processTask
        rw [hf]
        simp [CodeSample.sendMessage]
      · unfold WithSOLID.processTask
        rw [hs]
        simp [WithSOLID.sendMessage]
      · simp [sendPayloads]
      · simp [logTexts]
  | error ex =>
      have hs : WithSOLID.fetchMessageById id = Except.error ex := hfetch.trans hf
      refine ⟨[Event.log LogStream.stderr ("Task " ++ toString id ++ ": Error -> " ++ ex)],
              [Event.log LogStream.stderr ("Task " ++ toString id ++ ": Error -> " ++ ex)],
              ?_, ?_, rfl, rfl⟩
      · unfold CodeSample.processTask
        rw [hf]
      · unfold WithSOLID.processTask
        rw [hs]

/-- Queue state instrumented with operation counters: the pending sequence
together with the number of completed pushes and completed pops. -/
structure QCounters where
  queue : List Int
  pushCount : Nat
  popCount : Nat
deriving DecidableEq, Repr

/-- One atomic queue operation, as serialised by the mutex: a completed
push (MessageQueue::push) or a completed pop (MessageQueue::pop, enabled
only when the pending sequence is nonempty). -/
inductive QStep : QCounters → QCounters → Prop where
  | push (v : Int) (s : QCounters) :
      QStep s ⟨MessageQueue.push s.queue v, s.pushCount + 1, s.popCount⟩
  | pop (v : Int) (rest : List Int) (s : QCounters) :
      MessageQueue.pop s.queue = some (v, rest) →
      QStep s ⟨rest, s.pushCount, s.popCount + 1⟩

/-- States reachable from the empty queue by any interleaving of push and
pop operations. -/
inductive QReach : QCounters → Prop where
  | init : QReach ⟨[], 0, 0⟩
  | step {s t : QCounters} : QReach s → QStep s t → QReach t

/-- C5: in every state reachable from the empty queue by any interleaving of
pushes and pops, completed pushes minus completed pops equals the current
queue length, and the difference is never negative. -/
theorem queue_count_invariant (s : QCounters) (h : QReach s) :
    s.pushCount = s.popCount + s.queue.length ∧ s.popCount ≤ s.pushCount := by
  induction h with
  | init => exact ⟨rfl, Nat.le_refl 0⟩
  | step hr hst ih =>
      obtain ⟨ih1, ih2⟩ := ih
      cases hst with
      | push v =>
          refine ⟨?_, ?_⟩ <;> simp [MessageQueue.push] <;> omega
      | pop =>
          rename_i v rest hpop
          have hq := (pop_eq_some_iff _ v rest).mp hpop
          rw [hq] at ih1
          simp at ih1
          refine ⟨?_, ?_⟩ <;> simp <;> omega

/-- Witness for C5 at the state reached by one push of 4. -/
theorem queue_count_invariant_witness :
    (QCounters.mk [4] 1 0).pushCount =
      (QCounters.mk [4] 1 0).popCount + (QCounters.mk [4] 1 0).queue.length ∧
    (QCounters.mk [4] 1 0).popCount ≤ (QCounters.mk [4] 1 0).pushCount :=
  queue_count_invariant ⟨[4], 1, 0⟩ (QReach.step QReach.init (QStep.push 4 ⟨[], 0, 0⟩))

/-- Draining state: the pending sequence together with the handler
invocations performed so far, each tagged with the worker that popped it. -/
structure DrainState where
  queue : List Int
  processed : List (Nat × Int)
deriving DecidableEq, Repr

/-- One worker-loop iteration: some worker w pops the front task under the
lock and invokes the handler on it (the pop and the recording of the
invocation; processing by different workers may interleave freely, which
the free choice of w at every step captures). -/
inductive DrainStep : DrainState → DrainState → Prop where
  | popProcess (w : Nat) (v : Int) (rest : List Int) (s : DrainState) :
      MessageQueue.pop s.queue = some (v, rest) →
      DrainStep s ⟨rest, s.processed ++ [(w, v)]⟩

/-- States reachable from a queue seeded with the list ids and no completed
invocations. -/
inductive DrainReach (ids : List Int) : DrainState → Prop where
  | init : DrainReach ids ⟨ids, []⟩
  | step {s t : DrainState} : DrainReach ids s → DrainStep s t → DrainReach ids t

theorem drain_invariant (ids : List Int) (s : DrainState) (h : DrainReach ids s) :
    s.processed.map Prod.snd ++ s.queue = ids := by
  induction h with
  | init => simp
  | step hr hst ih =>
      cases hst with
      | popProcess =>
          rename_i w v rest hpop
          have hq := (pop_eq_some_iff _ v rest).mp hpop
          rw [hq] at ih
          simpa using ih

/-- C6: pushing the list ids and fully draining the queue with any number of
concurrent workers yields exactly the handler invocations on ids, in order:
no task id is processed twice and no task id is lost, and the number of
invocations equals the number of seeded tasks. -/
theorem drain_conservation (ids : List Int) (s : DrainState) (h : DrainReach ids s)
    (hq : s.queue = []) :
    s.processed.map Prod.snd = ids ∧ s.processed.length = ids.length := by
  have hinv := drain_invariant ids s h
  rw [hq] at hinv
  simp at hinv
  refine ⟨hinv, ?_⟩
  calc s.processed.length = (s.processed.map Prod.snd).length := (List.length_map _ _).symm
    _ = ids.length := by rw [hinv]

/-- Witness for C6: seeding the single task 7 and draining it with worker 0. -/
theorem drain_conservation_witness :
    (DrainState.mk [] [((0 : Nat), (7 : Int))]).processed.map Prod.snd = [(7 : Int)] ∧
    (DrainState.mk [] [((0 : Nat), (7 : Int))]).processed.length = [(7 : Int)].length :=
  drain_conservation [7] ⟨[], [(0, 7)]⟩
    (DrainReach.step DrainReach.init (DrainStep.popProcess 0 7 [] ⟨[7], []⟩ rfl)) rfl

/-- Blocking-queue state: the pending sequence together with the number of
consumer threads currently suspended inside the wait of MessageQueue::pop. -/
structure BQState where
  queue : List Int
  blocked : Nat
deriving DecidableEq, Repr

/-- A consumer issues a pop: it takes the lock, and (the interesting case,
starting from an empty queue) finds the wait predicate false and suspends,
joining the blocked waiters. -/
def beginPop (s : BQState) : BQState :=
  ⟨s.queue, s.blocked + 1⟩

/-- A producer pushes v: appends it at the tail and signals the condition
variable (cv.notify_one), allowing one waiter to recheck the predicate. -/
def bqPush (v : Int) (s : BQState) : BQState :=
  ⟨MessageQueue.push s.queue v, s.blocked⟩

/-- A woken waiter rechecks the wait predicate: if the queue is still empty
(or nobody is blocked) it does not return (none); otherwise it removes the
front element and returns it, leaving the wait. -/
def tryReturn (s : BQState) : Option (Int × BQState) :=
  match s.blocked, s.queue with
  | 0, _ => none
  | _ + 1, [] => none
  | b + 1, v :: rest => some (v, ⟨rest, b⟩)

/-- C8: a pop issued on an empty queue does not return (whatever the number
b of other blocked waiters) until a push occurs; after one push of v, the
single woken waiter returns exactly v, and in the resulting state (empty
queue again, b waiters still blocked) no further pop can return: one push
unblocks exactly one blocked pop. -/
theorem blocking_pop (b : Nat) (v : Int) :
    tryReturn (beginPop ⟨[], b⟩) = none ∧
    tryReturn (bqPush v (beginPop ⟨[], b⟩)) = some (v, ⟨[], b⟩) ∧
    tryReturn ⟨[], b⟩ = none := by
  refine ⟨rfl, rfl, ?_⟩
  cases b <;> rfl

/-- Phase of one worker thread inside its loop: blocked in pop, processing a
task, or (only if the loop ever exited) finished. -/
inductive WorkerPhase where
  | popping
  | processing
  | finished
deriving DecidableEq, Repr

/-- The loop condition of the worker lambda in main: literally while (true). -/
def workerLoopGuard : Bool := true

/-- Join-variant driver state: the phases of the worker threads and how many
of them main has successfully joined. -/
structure SysState where
  workers : List WorkerPhase
  joined : Nat
deriving DecidableEq, Repr

/-- Transitions of the join-variant driver (DistributedSystemCodeSample.cpp
main): a worker finishes a pop and starts processing; a worker finishes
processing and, the loop guard being true, loops back to pop; a worker
leaves the loop, only possible if the guard were false; main joins a worker,
only possible once that worker thread has finished. -/
inductive SysStep : SysState → SysState → Prop where
  | beginTask (i : Nat) (s : SysState) :
      s.workers.get? i = some WorkerPhase.popping →
      SysStep s ⟨s.workers.set i WorkerPhase.processing, s.joined⟩
  | loopBack (i : Nat) (s : SysState) :
      s.workers.get? i = some WorkerPhase.processing →
      workerLoopGuard = true →
      SysStep s ⟨s.workers.set i WorkerPhase.popping, s.joined⟩
  | exitLoop (i : Nat) (s : SysState) :
      s.workers.get? i = some WorkerPhase.processing →
      workerLoopGuard = false →
      SysStep s ⟨s.workers.set i WorkerPhase.finished, s.joined⟩
  | joinWorker (i : Nat) (s : SysState) :
      s.workers.get? i = some WorkerPhase.finished →
      SysStep s ⟨s.workers, s.joined + 1⟩

/-- States reachable from the start of main: three workers spawned into
their loops, none joined. -/
inductive SysReach : SysState → Prop where
  | init : SysReach ⟨List.replicate 3 WorkerPhase.popping, 0⟩
  | step {s t : SysState} : SysReach s → SysStep s t → SysReach t

/-- C9: since the worker loop guard is unconditionally true, no worker
thread ever reaches the finished state in any reachable driver state, so
main joins no worker: the join shutdown never completes. -/
theorem workers_never_finish (s : SysState) (h : SysReach s) :
    (∀ p ∈ s.workers, p ≠ WorkerPhase.finished) ∧ s.joined = 0 := by
  induction h with
  | init =>
      refine ⟨fun p hp => ?_, rfl⟩
      rw [List.eq_of_mem_replicate hp]
      decide
  | step hr hst ih =>
      obtain ⟨ih1, ih2⟩ := ih
      cases hst with
      | beginTask =>
          rename_i i hget
          refine ⟨fun p hp => ?_, ih2⟩
          rcases List.mem_or_eq_of_mem_set hp with hmem | heq
          · exact ih1 p hmem
          · rw [heq]; decide
      | loopBack =>
          rename_i i hget hguard
          refine ⟨fun p hp => ?_, ih2⟩
          rcases List.mem_or_eq_of_mem_set hp with hmem | heq
          · exact ih1 p hmem
          · rw [heq]; decide
      | exitLoop =>
          rename_i i h1 h2
          exact absurd h1 (by simp [workerLoopGuard])
      | joinWorker =>
          rename_i i hget
          have hmem := List.get?_mem hget
          exact absurd rfl (ih1 _ hmem)

/-- Witness for C9: at the initial driver state, no worker is joined. -/
theorem workers_never_finish_witness :
    (SysState.mk (List.replicate 3 WorkerPhase.popping) 0).joined = 0 :=
  (workers_never_finish ⟨List.replicate 3 WorkerPhase.popping, 0⟩ SysReach.init).2
